import Mathlib

/-!
Shallow embedding of `src/src/vae/vae_wireframe.py` (CLR-Wire), the
wireframe variational autoencoder: its loss composition
(`AutoencoderKLWireframe.loss`), the tail of `AutoencoderKLWireframe.forward`,
the linear prediction heads (`linear_predict`), the construction-time weight
buffers, and a shape-level model of the encode/decode pipelines.

Numeric tensors are nested lists over `ℚ` (machine floats are modelled as
exact arithmetic); loss values live in `ℝ` because cross-entropy and the
log-decay weights use `exp`/`log`.  Batched tensors of shape (b, n, c) are
`List (List (List ℚ))`; the flag/offset tensor rows are `FlagDiff` records,
one per segment position (channel 0 = flag, 1 = col offset, 2 = row offset).
External collaborators (the x-transformers attention blocks, `PointEmbed`,
and diffusers' `DiagonalGaussianDistribution`) are modelled at the shape
level or carried as explicit data, exactly as the spec scopes them out.
-/

namespace CLRWire

abbrev Mat (α : Type) := List (List α)
abbrev Ten3 (α : Type) := List (List (List α))

/-- Boolean masked selection along one axis: the embedding of `t[mask]` for a
mask aligned with the leading axis of `t` (selected entries, in order). -/
def maskSel {α : Type} : List Bool → List α → List α
  | [], _ => []
  | m :: ms, vs =>
    match vs with
    | [] => []
    | v :: tl => if m then v :: maskSel ms tl else maskSel ms tl

/-- Embedding of `x[mask]` when `mask` has shape (b, n) and `x` has shape
(b, n, ...): the per-position entries at valid positions, flattened across the
batch.  In the source the mask is first repeated across the trailing channel
axis (`repeat(xs_mask, 'b nl -> b nl r')`); selecting whole channel rows at
valid positions yields exactly the same selected scalars. -/
def lineMaskSelect {γ : Type} (mask : Mat Bool) (vals : List (List γ)) : List γ :=
  (List.zipWith maskSel mask vals).flatten

/-- Mean of a list of rationals, as torch `.mean()` over the flattened tensor
(division by zero, i.e. a fully masked selection, is the `0` junk value). -/
def listMeanQ (l : List ℚ) : ℚ := l.sum / l.length

/-- Mean of a list of reals. -/
noncomputable def listMeanR (l : List ℝ) : ℝ := l.sum / l.length

/-- Number of `true` entries of a (b, n) boolean mask. -/
def trueCount (m : Mat Bool) : ℕ := List.count true m.flatten

/-- `torch.linspace(a, b, n)`: `n` evenly spaced values from `a` to `b`
(`[a]` for `n = 1`, `[]` for `n = 0`). -/
def linspace (a b : ℚ) (n : ℕ) : List ℚ :=
  (List.range n).map (fun (i : ℕ) =>
    if n ≤ 1 then a else a + (i : ℚ) * (b - a) / ((n : ℚ) - 1))

/-- Configuration surface of `AutoencoderKLWireframe.__init__` (the fields the
embedded operations read); defaults as in the source. -/
structure Config where
  latent_channels : ℕ := 8
  max_col_diff : ℕ := 6
  max_row_diff : ℕ := 32
  attn_dim : ℕ := 512
  max_curves_num : ℕ := 128
  wireframe_latent_num : ℕ := 64
  curve_latent_embed_dim : ℕ := 256
  coor_embed_dim : ℕ := 128
  col_diff_embed_dim : ℕ := 16
  row_diff_embed_dim : ℕ := 32
  label_smoothing : ℚ := 5 / 1000
deriving DecidableEq

/-- The five task-loss weights plus the KL weight, as configured at
construction time. -/
structure LossWeights where
  cls_loss_weight : ℝ
  segment_loss_weight : ℝ
  col_diff_loss_weight : ℝ
  row_diff_loss_weight : ℝ
  curve_latent_loss_weight : ℝ
  kl_loss_weight : ℝ

/-- `col_diff_class_weights = torch.exp(torch.linspace(-1, 1, max_col_diff))`
(source `__init__`, lines 337-338). -/
noncomputable def colDiffClassWeights (maxColDiff : ℕ) : List ℝ :=
  (linspace (-1) 1 maxColDiff).map (fun (x : ℚ) => Real.exp (x : ℝ))

/-- `row_diff_class_weights = torch.exp(torch.linspace(-1, 1, max_row_diff))`
(source `__init__`, lines 340-341). -/
noncomputable def rowDiffClassWeights (maxRowDiff : ℕ) : List ℝ :=
  (linspace (-1) 1 maxRowDiff).map (fun (x : ℚ) => Real.exp (x : ℝ))

/-- `col_weights = 1.2 - 0.2 * torch.log(torch.linspace(0, 2, max_curves_num) + 1.7183)`
(source `__init__`, lines 343-344). -/
noncomputable def colWeights (maxCurvesNum : ℕ) : List ℝ :=
  (linspace 0 2 maxCurvesNum).map (fun (t : ℚ) =>
    1.2 - 0.2 * Real.log ((t : ℝ) + 1.7183))

/-- Modelled from the spec: `ce_loss` lives in `src/vae/modules.py`, which is
not under `src/`; the spec describes it as cross-entropy with label smoothing
and an optional fixed per-class weight.  `logSumExp` is the log-partition of a
logit vector. -/
noncomputable def logSumExp (logits : List ℚ) : ℝ :=
  Real.log ((logits.map (fun (x : ℚ) => Real.exp (x : ℝ))).sum)

/-- Modelled from the spec: log-softmax of class `c` of a logit vector. -/
noncomputable def logSoftmaxAt (logits : List ℚ) (c : ℕ) : ℝ :=
  ((logits.getD c 0 : ℚ) : ℝ) - logSumExp logits

/-- Modelled from the spec: the per-position value of `ce_loss` (from
`src/vae/modules.py`, not under `src/`) with `reduction='none'`: a
label-smoothed cross-entropy between one logit vector and one integer target,
scaled by the target's entry of the per-class weight vector (weight 1 when no
weight vector is supplied, i.e. `weight = []`).  Each position is mapped
independently of every other position. -/
noncomputable def cePos (numClasses : ℕ) (smoothing : ℚ) (weight : List ℝ)
    (logits : List ℚ) (target : ℤ) : ℝ :=
  weight.getD target.toNat 1 *
    (-(Finset.range numClasses).sum (fun c =>
      ((if (c : ℤ) = target then ((1 : ℝ) - (smoothing : ℚ)) else 0)
          + ((smoothing : ℚ) : ℝ) / numClasses) * logSoftmaxAt logits c))

/-- Modelled from the spec: `ce_loss` with `reduction='mean'` and no class
weight, over a batch of logit vectors and integer targets. -/
noncomputable def ceMean (numClasses : ℕ) (smoothing : ℚ)
    (logitsB : Mat ℚ) (targets : List ℤ) : ℝ :=
  listMeanR (List.zipWith (fun lg t => cePos numClasses smoothing [] lg t) logitsB targets)

/-- One position of the ground-truth flag/offset tensor
(`flag_diffs[..., 0]`, `[..., 1]`, `[..., 2]`). -/
structure FlagDiff where
  flag : ℤ
  col : ℤ
  row : ℤ
deriving DecidableEq

/-- The four-way prediction bundle (`preds` dict of `forward`). -/
structure Preds where
  cls : Mat ℚ
  segments : Ten3 ℚ
  diffs : Ten3 ℚ
  curve_latent : Ten3 ℚ
deriving DecidableEq

/-- `cls = gt_flag_diffs[..., 0].sum(dim=-1) - 1` (source `loss`, line 468):
the per-batch-item classification target. -/
def clsTargets (gtFlagDiffs : List (List FlagDiff)) : List ℤ :=
  gtFlagDiffs.map (fun item => (item.map (fun d => d.flag)).sum - 1)

/-- The `cls_ce_loss` term of `loss` (source lines 471-479): cross-entropy with
label smoothing, `reduction='mean'`, `num_classes = max_curves_num`. -/
noncomputable def clsCeLoss (cfg : Config) (predClsLogits : Mat ℚ)
    (gtFlagDiffs : List (List FlagDiff)) : ℝ :=
  ceMean cfg.max_curves_num cfg.label_smoothing predClsLogits (clsTargets gtFlagDiffs)

/-- Elementwise squared error of one 6-coordinate row
(`MSELoss(reduction='none')`). -/
def rowSqErr (p g : List ℚ) : List ℚ := List.zipWith (fun a b => (a - b) ^ 2) p g

/-- The `segment_mse_loss` term of `loss` (source lines 484-487): elementwise
squared error, masked by `xs_mask` repeated across the 6 coordinate channels,
then averaged over the selected scalars. -/
noncomputable def segmentMseLoss (predSegments gtSegmentCoords : Ten3 ℚ)
    (xsMask : Mat Bool) : ℝ :=
  ((listMeanQ ((lineMaskSelect xsMask
    (List.zipWith (fun pi gi => List.zipWith rowSqErr pi gi)
      predSegments gtSegmentCoords)).flatten) : ℚ) : ℝ)

/-- One position of the column-offset cross-entropy with `reduction='none'`:
the first `max_col_diff` logits of the position (the col half of the
`rearrange`/`split` of `pred_diffs_logits` in source lines 491-493) against the
col target, weighted by `col_diff_class_weights`. -/
noncomputable def colDiffPosLoss (cfg : Config) (logitsRow : List ℚ) (d : FlagDiff) : ℝ :=
  cePos cfg.max_col_diff cfg.label_smoothing (colDiffClassWeights cfg.max_col_diff)
    (logitsRow.take cfg.max_col_diff) d.col

/-- One position of the row-offset cross-entropy with `reduction='none'`: the
remaining logits of the position against the row target, weighted by
`row_diff_class_weights`. -/
noncomputable def rowDiffPosLoss (cfg : Config) (logitsRow : List ℚ) (d : FlagDiff) : ℝ :=
  cePos cfg.max_row_diff cfg.label_smoothing (rowDiffClassWeights cfg.max_row_diff)
    (logitsRow.drop cfg.max_col_diff) d.row

/-- The `col_diff_ce_loss` term of `loss` (source lines 495-516): per-position
weighted cross-entropy, multiplied elementwise by the position-indexed
`col_weights` (repeated across the batch), masked by `xs_mask`, averaged. -/
noncomputable def colDiffCeLoss (cfg : Config) (predDiffs : Ten3 ℚ)
    (gtFlagDiffs : List (List FlagDiff)) (xsMask : Mat Bool) : ℝ :=
  listMeanR (lineMaskSelect xsMask
    (List.zipWith (fun pi gi =>
      List.zipWith (fun a b => a * b)
        (List.zipWith (fun r d => colDiffPosLoss cfg r d) pi gi)
        (colWeights cfg.max_curves_num)) predDiffs gtFlagDiffs))

/-- The `row_diff_ce_loss` term of `loss` (source lines 504-517): per-position
weighted cross-entropy, masked by `xs_mask`, averaged (no positional weight). -/
noncomputable def rowDiffCeLoss (cfg : Config) (predDiffs : Ten3 ℚ)
    (gtFlagDiffs : List (List FlagDiff)) (xsMask : Mat Bool) : ℝ :=
  listMeanR (lineMaskSelect xsMask
    (List.zipWith (fun pi gi =>
      List.zipWith (fun r d => rowDiffPosLoss cfg r d) pi gi) predDiffs gtFlagDiffs))

/-- `torch.clamp(x, 0., 1.)`. -/
def clamp01 (x : ℚ) : ℚ := min 1 (max 0 x)

/-- Per-position curve-latent loss row (source lines 520-524): channel `j`
contributes `(1.2 - 0.5 * log(clamp(gt_std_j, 0, 1) + 1.7183)) * (pred_j - gt_mu_j)^2`,
where `gt_mu` is the first 12 channels of the 24-channel ground truth and
`gt_std` the last 12. -/
noncomputable def curveLatentRow (predRow gtRow : List ℚ) : List ℝ :=
  List.zipWith (fun pg s =>
    ((1.2 : ℝ) - 0.5 * Real.log (((clamp01 s : ℚ) : ℝ) + 1.7183))
      * (((pg.1 - pg.2) ^ 2 : ℚ) : ℝ))
    (predRow.zip (gtRow.take 12)) (gtRow.drop 12)

/-- The `curve_latent_loss` term of `loss` (source lines 520-524): weighted
squared error, masked by `xs_mask` repeated across the 12 latent channels,
averaged over the selected scalars. -/
noncomputable def curveLatentLoss (predCurveLatent gtCurveLatent : Ten3 ℚ)
    (xsMask : Mat Bool) : ℝ :=
  listMeanR ((lineMaskSelect xsMask
    (List.zipWith (fun pi gi => List.zipWith curveLatentRow pi gi)
      predCurveLatent gtCurveLatent)).flatten)

/-- `AutoencoderKLWireframe.loss` (source lines 445-526): the five returned
components `(cls_ce_loss, segment_mse_loss, col_diff_ce_loss, row_diff_ce_loss,
curve_latent_loss)`. -/
noncomputable def lossComponents (cfg : Config) (gtSegmentCoords : Ten3 ℚ)
    (gtFlagDiffs : List (List FlagDiff)) (gtCurveLatent : Ten3 ℚ)
    (xsMask : Mat Bool) (preds : Preds) : ℝ × ℝ × ℝ × ℝ × ℝ :=
  (clsCeLoss cfg preds.cls gtFlagDiffs,
   segmentMseLoss preds.segments gtSegmentCoords xsMask,
   colDiffCeLoss cfg preds.diffs gtFlagDiffs xsMask,
   rowDiffCeLoss cfg preds.diffs gtFlagDiffs xsMask,
   curveLatentLoss preds.curve_latent gtCurveLatent xsMask)

/-- Statistics of diffusers' `DiagonalGaussianDistribution` (external
collaborator): the mean, variance, log-variance and standard deviation the
posterior exposes, each of shape (b, latent_channels, wireframe_latent_num). -/
structure Posterior where
  mean : Ten3 ℚ
  var : Ten3 ℚ
  logvar : Ten3 ℚ
  std : Ten3 ℚ
deriving DecidableEq

/-- `kl_loss = 0.5 * torch.sum(mean^2 + var - 1 - logvar, dim=[1,2]).mean()`
(source `forward`, line 586). -/
def klLoss (p : Posterior) : ℚ :=
  listMeanQ (List.zipWith (fun mB vlB =>
    (1 / 2 : ℚ) * (List.zipWith (fun mr vlr =>
      (List.zipWith (fun m vl => m ^ 2 + vl.1 - 1 - vl.2) mr (vlr.1.zip vlr.2)).sum)
      mB (vlB.1.zip vlB.2)).sum)
    p.mean (p.var.zip p.logvar))

/-- `t.abs().mean()` over every element of a (b, c, n) tensor. -/
def ten3MeanAbs (t : Ten3 ℚ) : ℚ := listMeanQ (t.flatten.flatten.map (fun x => |x|))

/-- `t.mean()` over every element of a (b, c, n) tensor. -/
def ten3Mean (t : Ten3 ℚ) : ℚ := listMeanQ t.flatten.flatten

/-- The `all_losses` dictionary assembled by `forward` (source lines 605-626),
keys as in the source. -/
structure AllLosses where
  cls_ce_loss : ℝ
  segment_mse_loss : ℝ
  col_diff_ce_loss : ℝ
  row_diff_ce_loss : ℝ
  curve_latent_loss : ℝ
  kl_loss : ℝ
  mu : ℝ
  std : ℝ

/-- The three return shapes of `AutoencoderKLWireframe.forward`: the
one-element tuple `(preds,)` when `return_dict=False`, the pair
`(loss, all_losses)` when the loss is computed, or the bare `preds`. -/
inductive ForwardOut where
  | predsTuple (p : Preds)
  | lossPair (loss : ℝ) (allLosses : AllLosses)
  | preds (p : Preds)

def ForwardOut.allOf : ForwardOut → Option AllLosses
  | ForwardOut.lossPair _ a => some a
  | _ => none

def ForwardOut.totalOf : ForwardOut → Option ℝ
  | ForwardOut.lossPair t _ => some t
  | _ => none

def ForwardOut.isLossPair : ForwardOut → Bool
  | ForwardOut.lossPair _ _ => true
  | _ => false

/-- The flag channel `flag_diffs[..., 0]`. -/
def flagsOf (fd : List (List FlagDiff)) : List (List ℤ) :=
  fd.map (fun item => item.map (fun d => d.flag))

/-- `xs_mask = flags > 0.5` (source `forward`, lines 549-550). -/
def xsMaskOf (fd : List (List FlagDiff)) : Mat Bool :=
  (flagsOf fd).map (fun row => row.map (fun (f : ℤ) => decide ((1 : ℚ) / 2 < (f : ℚ))))

/-- `segment_coords = xs[..., :6]` (source `forward`, line 559). -/
def segCoordsOf (xs : Ten3 ℚ) : Ten3 ℚ := xs.map (fun item => item.map (fun r => r.take 6))

/-- `gt_curve_latent = xs[..., 6:]` (source `forward`, line 600). -/
def curveLatentOf (xs : Ten3 ℚ) : Ten3 ℚ := xs.map (fun item => item.map (fun r => r.drop 6))

/-- The tail of `AutoencoderKLWireframe.forward` (source lines 528-630) from
the point where the posterior and the prediction bundle exist.  The encoder,
decoder and prediction heads are attention networks (external collaborators),
so `preds` and `posterior` enter as the values they produced; everything from
the mask computation and the `return_dict` / `return_loss` branching through
the loss combination is embedded from the source. -/
noncomputable def forward (cfg : Config) (w : LossWeights) (xs : Ten3 ℚ)
    (flagDiffs : List (List FlagDiff)) (preds : Preds) (posterior : Posterior)
    (samplePosterior returnDict returnLoss : Bool) : ForwardOut :=
  let xsMask := xsMaskOf flagDiffs
  let segmentCoords := segCoordsOf xs
  if returnDict = false then ForwardOut.predsTuple preds
  else if returnLoss = true then
    let kl0 : ℝ := ((klLoss posterior : ℚ) : ℝ)
    let klL : ℝ := if samplePosterior = true then kl0 else 0 * kl0
    let comps := lossComponents cfg segmentCoords flagDiffs (curveLatentOf xs) xsMask preds
    let total := w.cls_loss_weight * comps.1 + w.segment_loss_weight * comps.2.1
      + w.col_diff_loss_weight * comps.2.2.1 + w.row_diff_loss_weight * comps.2.2.2.1
      + w.curve_latent_loss_weight * comps.2.2.2.2 + w.kl_loss_weight * klL
    ForwardOut.lossPair total
      { cls_ce_loss := comps.1
        segment_mse_loss := comps.2.1
        col_diff_ce_loss := comps.2.2.1
        row_diff_ce_loss := comps.2.2.2.1
        curve_latent_loss := comps.2.2.2.2
        kl_loss := klL
        mu := ((ten3MeanAbs posterior.mean : ℚ) : ℝ)
        std := ((ten3Mean posterior.std : ℚ) : ℝ) }
  else ForwardOut.preds preds

/-! ### Prediction heads (`linear_predict`, source lines 418-432) -/

/-- Dot product of a weight row with an input vector. -/
def dot (w x : List ℚ) : ℚ := (List.zipWith (fun a b => a * b) w x).sum

/-- An `nn.Linear` layer: a weight matrix (one row per output feature) and a
bias vector. -/
structure Lin where
  w : Mat ℚ
  b : List ℚ
deriving DecidableEq

/-- Applying a linear layer to one feature vector. -/
def Lin.apply (l : Lin) (x : List ℚ) : List ℚ :=
  List.zipWith (fun r bi => dot r x + bi) l.w l.b

/-- `out_dim = 6 + 6 + 32 + 12` (source `__init__`, line 310, with the
source's comment `num_segments + num_col_diffs + num_row_diffs +
num_curve_latent`): the output width of `predict_features` is hard-coded to
the default offset table sizes and does not read the configuration. -/
def featuresOutDim (_cfg : Config) : ℕ := 6 + 6 + 32 + 12

/-- `AutoencoderKLWireframe.linear_predict` (source lines 418-432): token 0 of
the decoder output feeds `predict_cls`, tokens 1.. feed `predict_features`,
whose output rows are sliced into segments `[:6]`, offset logits
`[6:posDiffs]` and curve latent `[posDiffs:]` with `posDiffs = 6 + max_col_diff +
max_row_diff`; the three `assert ... shape[-1]` guards are the `none` case. -/
def linearPredict (cfg : Config) (predictCls predictFeatures : Lin)
    (dec : Ten3 ℚ) : Option Preds :=
  let numSegments : ℕ := 6
  let numDiffs : ℕ := numSegments + cfg.max_col_diff + cfg.max_row_diff
  let predClsLogits := dec.map (fun item => predictCls.apply item.headI)
  let predFeaturesLogits := dec.map (fun item => (item.drop 1).map (fun r => predictFeatures.apply r))
  let predSegments := predFeaturesLogits.map (fun item => item.map (fun r => r.take numSegments))
  let predDiffsLogits := predFeaturesLogits.map (fun item =>
    item.map (fun r => (r.drop numSegments).take (numDiffs - numSegments)))
  let predCurveLatent := predFeaturesLogits.map (fun item => item.map (fun r => r.drop numDiffs))
  if (predSegments.all (fun item => item.all (fun r => r.length == numSegments)))
      && (predDiffsLogits.all (fun item =>
        item.all (fun r => r.length == cfg.max_col_diff + cfg.max_row_diff)))
      && (predCurveLatent.all (fun item => item.all (fun r => r.length == 12)))
  then some { cls := predClsLogits, segments := predSegments,
              diffs := predDiffsLogits, curve_latent := predCurveLatent }
  else none

/-! ### Shape calculus for the encode/decode pipelines

Shapes are lists of dimensions.  Operations that can fail on a shape mismatch
(as torch fails fast) return `Option`. -/

/-- Last dimension of a shape. -/
def lastDim : List ℕ → Option ℕ
  | [] => none
  | [d] => some d
  | _ :: d :: rest => lastDim (d :: rest)

/-- Replace the last dimension of a shape. -/
def setLast (o : ℕ) : List ℕ → List ℕ
  | [] => []
  | [_] => [o]
  | d :: e :: rest => d :: setLast o (e :: rest)

/-- Shape behaviour of `nn.Linear(inF, outF)`: the last dimension must equal
`inF` and becomes `outF`. -/
def linShape (inF outF : ℕ) (s : List ℕ) : Option (List ℕ) :=
  match lastDim s with
  | some d => if d = inF then some (setLast outF s) else none
  | none => none

/-- Broadcasting of one dimension pair (equal, or one of them 1). -/
def bcastDim (a b : ℕ) : Option ℕ :=
  if a = b then some a else if a = 1 then some b else if b = 1 then some a else none

/-- Broadcasting of two reversed shapes. -/
def bcastRev : List ℕ → List ℕ → Option (List ℕ)
  | [], t => some t
  | a :: s, [] => some (a :: s)
  | a :: s, b :: t =>
    match bcastDim a b, bcastRev s t with
    | some d, some r => some (d :: r)
    | _, _ => none

/-- Shape behaviour of an elementwise binary torch op (such as the `pos_emb +
wire_embed` addition): right-aligned broadcasting. -/
def bcastShape (s t : List ℕ) : Option (List ℕ) :=
  (bcastRev s.reverse t.reverse).map List.reverse

/-- Modelled from the spec: the cross-attention transformer layer produced by
`AttentionLayerFactory` (in `src/vae/modules.py`, not under `src/`): the
output keeps the query's shape; batch and feature width of query and context
must agree; when a context mask is supplied it carries one validity flag per
context position, so it must have shape (batch, context length). -/
def crossAttnShape (q ctx : List ℕ) (mask : Option (List ℕ)) : Option (List ℕ) :=
  match q, ctx with
  | [b, n, d], [b2, n2, d2] =>
    if (b = b2 ∧ d = d2) ∧ (mask = none ∨ mask = some [b2, n2])
    then some [b, n, d] else none
  | _, _ => none

/-- Modelled from the spec: the self-attention stack produced by
`AttentionLayerFactory` (in `src/vae/modules.py`, not under `src/`) keeps its
(b, n, d) input shape. -/
def selfAttnShape (s : List ℕ) : Option (List ℕ) :=
  match s with
  | [b, n, d] => some [b, n, d]
  | _ => none

/-- Shape behaviour of `Encoder1D.forward` (source lines 108-163) on a batch
of `B` items with `N` padded segment positions (`xs : (B, N, 18)`,
`flag_diffs : (B, N, 3)`).  The point/offset/latent embedders (external
collaborators) each keep the (B, N) leading axes and produce their configured
feature widths, which `pack` concatenates; the fallible steps are the
projections, the positional-bias addition `pos_emb + wire_embed` (line 142,
`pos_emb : (max_curves_num, attn_dim)`) and the masked cross-attention. -/
def encoderForwardShape (cfg : Config) (B N : ℕ) : Option (List ℕ) := do
  -- line_coords = xs[..., :6]; two 3-d endpoints through PointEmbed
  -- (dim = coor_embed_dim * 3 per point), re-packed per segment:
  let lineCoorEmbed := [B, N, 6 * cfg.coor_embed_dim]
  -- col_diff_embed / row_diff_embed lookups on flag_diffs[..., 1:]:
  let colDiffEmbed := [B, N, cfg.col_diff_embed_dim]
  let rowDiffEmbed := [B, N, cfg.row_diff_embed_dim]
  -- latent_embed = nn.Linear(12, curve_latent_embed_dim) on xs[..., 6:]:
  let curveLatentEmbed ← linShape 12 cfg.curve_latent_embed_dim [B, N, 12]
  -- wire_embed, _ = pack([...], 'b nl *'):
  let initDim := 6 * cfg.coor_embed_dim + cfg.col_diff_embed_dim
    + cfg.row_diff_embed_dim + cfg.curve_latent_embed_dim
  let packed ← match lineCoorEmbed, colDiffEmbed, rowDiffEmbed, curveLatentEmbed with
    | [b1, n1, _], [_, _, _], [_, _, _], [_, _, _] => some [b1, n1, initDim]
    | _, _, _, _ => none
  -- wire_embed = attn_project_in(wire_embed):
  let wireEmbed ← linShape initDim cfg.attn_dim packed
  -- wire_embed = pos_emb + wire_embed:
  let wireEmbed ← bcastShape [cfg.max_curves_num, cfg.attn_dim] wireEmbed
  -- enc_learnable_query = repeat(enc_learnable_queries, 'n d -> b n d'):
  let queries := [B, cfg.wireframe_latent_num, cfg.attn_dim]
  -- context_padding_mask = rearrange(flag < 0.5, 'b n c -> b (n c)'):
  let ctxMask := [B, N]
  -- cross_attn(x=queries, context=wire_embed, context_mask=~context_padding_mask):
  let pooled ← crossAttnShape queries wireEmbed (some ctxMask)
  -- project_out (double_z, so out width is 2 * latent_channels):
  linShape cfg.attn_dim (2 * cfg.latent_channels) pooled

/-- Shape behaviour of `AutoencoderKLWireframe.encode` (source lines 351-384)
up to the posterior's parameter tensor: `quant_proj` then
`rearrange 'b n d -> b d n'`. -/
def encodeMomentsShape (cfg : Config) (B N : ℕ) : Option (List ℕ) := do
  let h ← encoderForwardShape cfg B N
  let m ← linShape (2 * cfg.latent_channels) (2 * cfg.latent_channels) h
  match m with
  | [b, n, d] => some [b, d, n]
  | _ => none

/-- Modelled from diffusers' `DiagonalGaussianDistribution` (external
collaborator): parameters of shape (b, 2c, n) are chunked into mean and
log-variance halves of shape (b, c, n) along the channel axis (axis 1). -/
def gaussianMeanShape (s : List ℕ) : Option (List ℕ) :=
  match s with
  | [b, c, n] => if c % 2 = 0 then some [b, c / 2, n] else none
  | _ => none

/-- Shape of the posterior mean (and equally of the log-variance) produced by
`encode` on a (B, N, 18) input. -/
def encodePosteriorShape (cfg : Config) (B N : ℕ) : Option (List ℕ) :=
  (encodeMomentsShape cfg B N).bind gaussianMeanShape

/-- Shape behaviour of `Decoder1D.forward` (source lines 210-235): `proj_in`,
optional positional bias over the `wireframe_latent_num` slots, self-attention,
cross-attention against the `1 + max_curves_num` learnable queries, and
`proj_out`. -/
def decoderForwardShape (cfg : Config) (useLatentPosEmb : Bool) (s : List ℕ) :
    Option (List ℕ) := do
  let h ← linShape cfg.latent_channels cfg.attn_dim s
  let h ← if useLatentPosEmb then
      bcastShape [cfg.wireframe_latent_num, cfg.attn_dim] h
    else pure h
  let h ← selfAttnShape h
  match h with
  | [b, n, d] => do
    -- query_embed = repeat(dec_learnable_query, 'n d -> b n d'):
    let q := [b, 1 + cfg.max_curves_num, cfg.attn_dim]
    let h2 ← crossAttnShape q [b, n, d] none
    linShape cfg.attn_dim cfg.attn_dim h2
  | _ => none

/-- Shape behaviour of `AutoencoderKLWireframe.decode` / `_decode` (source
lines 386-415) on a latent of shape `z`: `rearrange 'b d n -> b n d'`,
`post_quant_proj`, then the decoder. -/
def decodeShape (cfg : Config) (useLatentPosEmb : Bool) (z : List ℕ) :
    Option (List ℕ) := do
  let zt ← match z with
    | [b, d, n] => some [b, n, d]
    | _ => none
  let z1 ← linShape cfg.latent_channels cfg.latent_channels zt
  decoderForwardShape cfg useLatentPosEmb z1

/-! ### `AutoencoderKLWireframeFastDecode.forward` (source lines 855-891) -/

/-- The two return shapes of `AutoencoderKLWireframeFastDecode.forward`: the
one-element tuple `(dec,)` holding the raw decoder output when
`return_dict=False`, or the prediction dictionary. -/
inductive FastDecodeOut where
  | decTuple (dec : Ten3 ℚ)
  | predsDict (p : Preds)
deriving DecidableEq

/-- The tail of `AutoencoderKLWireframeFastDecode.forward` (source lines
855-891, linear prediction strategy) from the point where the decoder output
`dec` exists (the decoder itself is the attention stack whose shape behaviour
is `decodeShape`): the prediction heads run first (their slice-width asserts
included), and only then the `return_dict` branch picks the raw `(dec,)` tuple
or the prediction dictionary. -/
def fastDecodeForward (cfg : Config) (predictCls predictFeatures : Lin)
    (dec : Ten3 ℚ) (returnDict : Bool) : Option FastDecodeOut :=
  match linearPredict cfg predictCls predictFeatures dec with
  | none => none
  | some preds =>
    if returnDict = false then some (FastDecodeOut.decTuple dec)
    else some (FastDecodeOut.predsDict preds)

/-! ### Concrete instances used by the witnesses and counterexamples -/

/-- The source's default configuration. -/
def cfg0 : Config := {}

/-- The default configuration with a different attention width (identical
offset ranges). -/
def cfgB : Config := { attn_dim := 7 }

/-- A small configuration (so that shape evaluations stay concrete):
`max_curves_num = 4`, `wireframe_latent_num = 2`, `latent_channels = 1`. -/
def cfgSmall : Config :=
  { latent_channels := 1, max_col_diff := 2, max_row_diff := 2, attn_dim := 3,
    max_curves_num := 4, wireframe_latent_num := 2, curve_latent_embed_dim := 1,
    coor_embed_dim := 1, col_diff_embed_dim := 1, row_diff_embed_dim := 1,
    label_smoothing := 0 }

/-- A configuration with a non-default offset range (`max_col_diff = 4`). -/
def cfgC6 : Config := { max_col_diff := 4, max_row_diff := 32 }

/-- A trivial classification head. -/
def pC0 : Lin := { w := [], b := [] }

/-- A feature head whose output width is the hard-coded `featuresOutDim`
(as `predict_features = nn.Linear(attn_dim, out_dim)` guarantees). -/
def pF0 : Lin := { w := List.replicate 56 [], b := List.replicate 56 0 }

/-- The feature head built for `cfgC6` — the constructor still allocates
`featuresOutDim cfgC6 = 56` output features. -/
def pF6 : Lin :=
  { w := List.replicate (featuresOutDim cfgC6) [], b := List.replicate (featuresOutDim cfgC6) 0 }

/-- A decoder output with one batch item: the classification slot and one
feature slot. -/
def dec0 : Ten3 ℚ := [[[], []]]

/-- The prediction bundle `linearPredict cfg0 pC0 pF0 dec0` produces. -/
def P0 : Preds :=
  { cls := [[]], segments := [[List.replicate 6 0]],
    diffs := [[List.replicate 38 0]], curve_latent := [[List.replicate 12 0]] }

/-- Two-position ground-truth flag/offset tensor: position 0 valid, position 1
invalid (flag 0) with nonzero offsets. -/
def fd1W : List (List FlagDiff) := [[⟨1, 0, 0⟩, ⟨0, 1, 2⟩]]

/-- The same tensor with the invalid position's offsets zeroed. -/
def fd2W : List (List FlagDiff) := [[⟨1, 0, 0⟩, ⟨0, 0, 0⟩]]

/-- Ground-truth segment coordinates matching `fd1W`. -/
def coords1W : Ten3 ℚ := [[[1, 2, 3, 4, 5, 6], [7, 8, 9, 10, 11, 12]]]

/-- The same coordinates with the invalid position zeroed. -/
def coords2W : Ten3 ℚ := [[[1, 2, 3, 4, 5, 6], [0, 0, 0, 0, 0, 0]]]

/-- Ground-truth curve latents (24 channels) matching `fd1W`. -/
def lat1W : Ten3 ℚ := [[List.replicate 24 1, List.replicate 24 2]]

/-- The same latents with the invalid position zeroed. -/
def lat2W : Ten3 ℚ := [[List.replicate 24 1, List.replicate 24 0]]

/-- A fixed prediction bundle for the masking-law witness. -/
def predsW : Preds :=
  { cls := [[0]],
    segments := [[List.replicate 6 0, List.replicate 6 0]],
    diffs := [[List.replicate 38 0, List.replicate 38 0]],
    curve_latent := [[List.replicate 12 0, List.replicate 12 0]] }

/-- The spec's concrete scenario mask: flags `[1,1,0,0]` and `[1,1,1,0]`. -/
def maskW : Mat Bool := [[true, true, false, false], [true, true, true, false]]

/-- Predicted segment coordinates for the spec's concrete scenario. -/
def segPW : Ten3 ℚ :=
  [List.replicate 4 (List.replicate 6 1), List.replicate 4 (List.replicate 6 1)]

/-- Ground-truth segment coordinates for the spec's concrete scenario. -/
def segGW : Ten3 ℚ :=
  [List.replicate 4 (List.replicate 6 0), List.replicate 4 (List.replicate 6 0)]

/-- A flag tensor with two valid segments in its single batch item. -/
def fdW3 : List (List FlagDiff) := [[⟨1, 0, 0⟩, ⟨1, 0, 0⟩]]

/-- An empty prediction bundle. -/
def predsE : Preds := { cls := [], segments := [], diffs := [], curve_latent := [] }

/-- An empty posterior. -/
def postE : Posterior := { mean := [], var := [], logvar := [], std := [] }

/-- Unit loss weights. -/
def wE : LossWeights :=
  { cls_loss_weight := 1, segment_loss_weight := 1, col_diff_loss_weight := 1,
    row_diff_loss_weight := 1, curve_latent_loss_weight := 1, kl_loss_weight := 1 }

/-! ### Helper lemmas about masked selection -/

/-- Changing the second `zipWith` argument only at positions the mask drops
does not change the masked selection of the result. -/
theorem maskSel_congr {α β γ : Type} (f : α → β → γ) :
    ∀ (m : List Bool) (p : List α) (g1 g2 : List β),
      g1.length = g2.length →
      maskSel m g1 = maskSel m g2 →
      maskSel m (List.zipWith f p g1) = maskSel m (List.zipWith f p g2) := by
  intro m
  induction m with
  | nil => intro p g1 g2 _ _; rfl
  | cons mh mt ih =>
    intro p g1 g2 hlen hsel
    cases p with
    | nil => simp [List.zipWith, maskSel]
    | cons ph pt =>
      cases g1 with
      | nil =>
        cases g2 with
        | nil => rfl
        | cons b t2 => simp at hlen
      | cons a t1 =>
        cases g2 with
        | nil => simp at hlen
        | cons b t2 =>
          have hlen2 : t1.length = t2.length := by
            simp only [List.length_cons] at hlen; omega
          cases mh with
          | false =>
            simp only [maskSel, Bool.false_eq_true, if_false] at hsel ⊢
            exact ih pt t1 t2 hlen2 hsel
          | true =>
            simp only [maskSel, if_true] at hsel ⊢
            simp only [List.zipWith, maskSel, if_true]
            injection hsel with h1 h2
            rw [h1, ih pt t1 t2 hlen2 h2]

/-- Changing the first `zipWith` argument only at positions the mask drops
does not change the masked selection of the result. -/
theorem maskSel_congrL {α β γ : Type} (f : α → β → γ) :
    ∀ (m : List Bool) (g1 g2 : List α) (p : List β),
      g1.length = g2.length →
      maskSel m g1 = maskSel m g2 →
      maskSel m (List.zipWith f g1 p) = maskSel m (List.zipWith f g2 p) := by
  intro m
  induction m with
  | nil => intro g1 g2 p _ _; rfl
  | cons mh mt ih =>
    intro g1 g2 p hlen hsel
    cases g1 with
    | nil =>
      cases g2 with
      | nil => rfl
      | cons b t2 => simp at hlen
    | cons a t1 =>
      cases g2 with
      | nil => simp at hlen
      | cons b t2 =>
        have hlen2 : t1.length = t2.length := by
          simp only [List.length_cons] at hlen; omega
        cases p with
        | nil => simp [List.zipWith, maskSel]
        | cons ph pt =>
          cases mh with
          | false =>
            simp only [maskSel, Bool.false_eq_true, if_false] at hsel ⊢
            exact ih t1 t2 pt hlen2 hsel
          | true =>
            simp only [maskSel, if_true] at hsel ⊢
            simp only [List.zipWith, maskSel, if_true]
            injection hsel with h1 h2
            rw [h1, ih t1 t2 pt hlen2 h2]

/-- Batch-level version of `maskSel_congr` for per-item computations that map
positions independently. -/
theorem lineSel_congr {π β γ : Type} (itemF : π → List β → List γ)
    (hlocal : ∀ (m : List Bool) (p : π) (g1 g2 : List β),
      g1.length = g2.length → maskSel m g1 = maskSel m g2 →
      maskSel m (itemF p g1) = maskSel m (itemF p g2)) :
    ∀ (mask : List (List Bool)) (preds : List π) (g1 g2 : List (List β)),
      g1.map List.length = g2.map List.length →
      List.zipWith maskSel mask g1 = List.zipWith maskSel mask g2 →
      List.zipWith maskSel mask (List.zipWith itemF preds g1)
        = List.zipWith maskSel mask (List.zipWith itemF preds g2) := by
  intro mask
  induction mask with
  | nil => intro preds g1 g2 _ _; rfl
  | cons m mt ih =>
    intro preds g1 g2 hshape hsel
    cases preds with
    | nil => rfl
    | cons p pt =>
      cases g1 with
      | nil =>
        cases g2 with
        | nil => rfl
        | cons b t2 => simp at hshape
      | cons a t1 =>
        cases g2 with
        | nil => simp at hshape
        | cons b t2 =>
          simp only [List.map_cons, List.cons.injEq] at hshape
          simp only [List.zipWith] at hsel ⊢
          injection hsel with h1 h2
          rw [hlocal m p a b hshape.1 h1, ih pt t1 t2 hshape.2 h2]

/-- Selecting with a mask as long as the value list keeps as many entries as
the mask has `true` flags. -/
theorem maskSel_length {α : Type} :
    ∀ (m : List Bool) (v : List α), m.length = v.length →
      (maskSel m v).length = m.count true := by
  intro m
  induction m with
  | nil => intro v _; simp [maskSel]
  | cons mh mt ih =>
    intro v hlen
    cases v with
    | nil => simp at hlen
    | cons x xs =>
      have hlen2 : mt.length = xs.length := by
        simp only [List.length_cons] at hlen; omega
      cases mh with
      | false => simp [maskSel, List.count_cons, ih xs hlen2]
      | true => simp [maskSel, List.count_cons, ih xs hlen2]

/-- Every row the mask selects is a row of the original tensor. -/
theorem maskSel_sublist {α : Type} :
    ∀ (m : List Bool) (v : List α), (maskSel m v).Sublist v := by
  intro m
  induction m with
  | nil => intro v; simp [maskSel]
  | cons mh mt ih =>
    intro v
    cases v with
    | nil => simp [maskSel]
    | cons x xs =>
      cases mh with
      | false => simpa [maskSel] using (ih xs).cons x
      | true => simpa [maskSel] using (ih xs).cons₂ x

/-- Per-item form of the valid-elements count: the selected squared-error rows
of one batch item hold `6 * (number of valid positions)` scalars. -/
theorem item_sel_len (m : List Bool) :
    ∀ (p g : List (List ℚ)),
      p.length = m.length → g.length = m.length →
      (∀ r ∈ p, r.length = 6) → (∀ r ∈ g, r.length = 6) →
      ((maskSel m (List.zipWith rowSqErr p g)).map List.length).sum = 6 * m.count true := by
  induction m with
  | nil => intro p g _ _ _ _; simp [maskSel]
  | cons mh mt ih =>
    intro p g hp hg hp6 hg6
    cases p with
    | nil => simp at hp
    | cons ph pt =>
      cases g with
      | nil => simp at hg
      | cons gh gt2 =>
        have hp2 : pt.length = mt.length := by
          simp only [List.length_cons] at hp; omega
        have hg2 : gt2.length = mt.length := by
          simp only [List.length_cons] at hg; omega
        have hp62 : ∀ r ∈ pt, r.length = 6 := fun r hr => hp6 r (List.mem_cons_of_mem ph hr)
        have hg62 : ∀ r ∈ gt2, r.length = 6 := fun r hr => hg6 r (List.mem_cons_of_mem gh hr)
        have hrow : (rowSqErr ph gh).length = 6 := by
          simp [rowSqErr, List.length_zipWith, hp6 ph (List.mem_cons_self _ _),
            hg6 gh (List.mem_cons_self _ _)]
        cases mh with
        | false =>
          simp only [List.zipWith, maskSel, Bool.false_eq_true, if_false]
          rw [ih pt gt2 hp2 hg2 hp62 hg62]
          simp [List.count_cons]
        | true =>
          simp only [List.zipWith, maskSel, if_true]
          rw [List.map_cons, List.sum_cons, hrow, ih pt gt2 hp2 hg2 hp62 hg62]
          simp [List.count_cons]
          ring

/-- The segment-regression selection holds exactly `6 * trueCount xsMask`
scalars: the mask gates the count, padded positions contribute nothing. -/
theorem batch_sel_len :
    ∀ (mask : Mat Bool) (p g : Ten3 ℚ),
      p.map List.length = mask.map List.length →
      g.map List.length = mask.map List.length →
      (∀ pi ∈ p, ∀ r ∈ pi, r.length = 6) →
      (∀ gi ∈ g, ∀ r ∈ gi, r.length = 6) →
      ((lineMaskSelect mask
        (List.zipWith (fun pi gi => List.zipWith rowSqErr pi gi) p g)).flatten).length
        = 6 * trueCount mask := by
  intro mask
  induction mask with
  | nil =>
    intro p g hp _ _ _
    cases p with
    | nil => simp [lineMaskSelect, trueCount]
    | cons x xs => simp at hp
  | cons m mt ih =>
    intro p g hp hg hp6 hg6
    cases p with
    | nil => simp at hp
    | cons ph pt =>
      cases g with
      | nil => simp at hg
      | cons gh gt2 =>
        simp only [List.map_cons, List.cons.injEq] at hp hg
        have hitem := item_sel_len m ph gh hp.1 hg.1
          (fun r hr => hp6 ph (List.mem_cons_self _ _) r hr)
          (fun r hr => hg6 gh (List.mem_cons_self _ _) r hr)
        have hrest := ih pt gt2 hp.2 hg.2
          (fun pi hpi => hp6 pi (List.mem_cons_of_mem ph hpi))
          (fun gi hgi => hg6 gi (List.mem_cons_of_mem gh hgi))
        simp only [lineMaskSelect, List.zipWith, List.flatten_cons, List.flatten_append,
          List.length_append, List.length_flatten] at hrest ⊢
        rw [hitem, hrest]
        simp [trueCount, List.count_append]
        ring

/-- The length equality of the flag channel follows from equal flags. -/
theorem flagsOf_shape (fd1 fd2 : List (List FlagDiff)) (h : flagsOf fd1 = flagsOf fd2) :
    fd1.map List.length = fd2.map List.length := by
  have h2 := congrArg (List.map List.length) h
  simpa [flagsOf, List.map_map, Function.comp_def, List.length_map] using h2

/-- The validity mask is a function of the flag channel alone. -/
theorem xsMaskOf_congr (fd1 fd2 : List (List FlagDiff)) (h : flagsOf fd1 = flagsOf fd2) :
    xsMaskOf fd1 = xsMaskOf fd2 := by
  unfold xsMaskOf
  rw [h]

/-- Evaluation of the encoder/encode shape pipeline at the padded length
`N = max_curves_num`. -/
theorem encodePosteriorShape_eval (cfg : Config) (B : ℕ) :
    encodePosteriorShape cfg B cfg.max_curves_num
      = some [B, cfg.latent_channels, cfg.wireframe_latent_num] := by
  simp [encodePosteriorShape, encodeMomentsShape, encoderForwardShape, linShape,
    lastDim, setLast, bcastShape, bcastRev, bcastDim, crossAttnShape,
    gaussianMeanShape, Option.bind, Nat.mul_mod_right]

/-- Evaluation of the decode shape pipeline on a latent of shape
(B, latent_channels, n): without the optional latent positional bias any `n`
is accepted. -/
theorem decodeShape_eval_any (cfg : Config) (B n : ℕ) :
    decodeShape cfg false [B, cfg.latent_channels, n]
      = some [B, 1 + cfg.max_curves_num, cfg.attn_dim] := by
  simp [decodeShape, decoderForwardShape, linShape, lastDim, setLast,
    selfAttnShape, crossAttnShape, Option.bind]

/-- Evaluation of the decode shape pipeline on a latent of shape
(B, latent_channels, wireframe_latent_num), for either setting of
`use_latent_pos_emb`. -/
theorem decodeShape_eval (cfg : Config) (ulpe : Bool) (B : ℕ) :
    decodeShape cfg ulpe [B, cfg.latent_channels, cfg.wireframe_latent_num]
      = some [B, 1 + cfg.max_curves_num, cfg.attn_dim] := by
  cases ulpe with
  | false => exact decodeShape_eval_any cfg B cfg.wireframe_latent_num
  | true =>
    simp [decodeShape, decoderForwardShape, linShape, lastDim, setLast,
      selfAttnShape, crossAttnShape, bcastShape, bcastRev, bcastDim, Option.bind]

/-- Local invariance of the weighted column-offset term of one batch item:
the positional `col_weights` multiply entries position by position, so
positions the mask drops cannot influence the selection. -/
theorem colItem_local (cfg : Config) (m : List Bool) (p : List (List ℚ))
    (g1 g2 : List FlagDiff) (hlen : g1.length = g2.length)
    (hsel : maskSel m g1 = maskSel m g2) :
    maskSel m (List.zipWith (fun a b => a * b)
        (List.zipWith (fun r d => colDiffPosLoss cfg r d) p g1)
        (colWeights cfg.max_curves_num))
      = maskSel m (List.zipWith (fun a b => a * b)
        (List.zipWith (fun r d => colDiffPosLoss cfg r d) p g2)
        (colWeights cfg.max_curves_num)) := by
  have h1 := maskSel_congr (fun r d => colDiffPosLoss cfg r d) m p g1 g2 hlen hsel
  have h2 : (List.zipWith (fun r d => colDiffPosLoss cfg r d) p g1).length
      = (List.zipWith (fun r d => colDiffPosLoss cfg r d) p g2).length := by
    simp [List.length_zipWith, hlen]
  exact maskSel_congrL (fun a b => a * b) m _ _ (colWeights cfg.max_curves_num) h2 h1

/-- The segment-regression term only reads ground truth the mask keeps. -/
theorem segmentMseLoss_congr (preds g1 g2 : Ten3 ℚ) (mask : Mat Bool)
    (hshape : g1.map List.length = g2.map List.length)
    (hsel : List.zipWith maskSel mask g1 = List.zipWith maskSel mask g2) :
    segmentMseLoss preds g1 mask = segmentMseLoss preds g2 mask := by
  unfold segmentMseLoss lineMaskSelect
  rw [lineSel_congr (fun pi gi => List.zipWith rowSqErr pi gi)
    (fun m p a b hl hs => maskSel_congr rowSqErr m p a b hl hs)
    mask preds g1 g2 hshape hsel]

/-- The column-offset term only reads ground truth the mask keeps. -/
theorem colDiffCeLoss_congr (cfg : Config) (preds : Ten3 ℚ)
    (fd1 fd2 : List (List FlagDiff)) (mask : Mat Bool)
    (hshape : fd1.map List.length = fd2.map List.length)
    (hsel : List.zipWith maskSel mask fd1 = List.zipWith maskSel mask fd2) :
    colDiffCeLoss cfg preds fd1 mask = colDiffCeLoss cfg preds fd2 mask := by
  unfold colDiffCeLoss lineMaskSelect
  rw [lineSel_congr _ (fun m p a b hl hs => colItem_local cfg m p a b hl hs)
    mask preds fd1 fd2 hshape hsel]

/-- The row-offset term only reads ground truth the mask keeps. -/
theorem rowDiffCeLoss_congr (cfg : Config) (preds : Ten3 ℚ)
    (fd1 fd2 : List (List FlagDiff)) (mask : Mat Bool)
    (hshape : fd1.map List.length = fd2.map List.length)
    (hsel : List.zipWith maskSel mask fd1 = List.zipWith maskSel mask fd2) :
    rowDiffCeLoss cfg preds fd1 mask = rowDiffCeLoss cfg preds fd2 mask := by
  unfold rowDiffCeLoss lineMaskSelect
  rw [lineSel_congr _
    (fun m p a b hl hs => maskSel_congr (fun r d => rowDiffPosLoss cfg r d) m p a b hl hs)
    mask preds fd1 fd2 hshape hsel]

/-- The curve-latent term only reads ground truth the mask keeps (both the
regression target and the spread-derived weights are per-position). -/
theorem curveLatentLoss_congr (preds g1 g2 : Ten3 ℚ) (mask : Mat Bool)
    (hshape : g1.map List.length = g2.map List.length)
    (hsel : List.zipWith maskSel mask g1 = List.zipWith maskSel mask g2) :
    curveLatentLoss preds g1 mask = curveLatentLoss preds g2 mask := by
  unfold curveLatentLoss lineMaskSelect
  rw [lineSel_congr (fun pi gi => List.zipWith curveLatentRow pi gi)
    (fun m p a b hl hs => maskSel_congr curveLatentRow m p a b hl hs)
    mask preds g1 g2 hshape hsel]

/-- `torch.linspace(a, b, n)` has `n` entries. -/
theorem linspace_length (a b : ℚ) (n : ℕ) : (linspace a b n).length = n := by
  rw [linspace, List.length_map, List.length_range]

/-- The witness classification head maps every input to the empty logit
vector. -/
theorem pC0_apply (x : List ℚ) : pC0.apply x = [] := by
  simp [pC0, Lin.apply]

/-- The witness feature head maps every input to 56 zeros. -/
theorem pF0_apply (x : List ℚ) : pF0.apply x = List.replicate 56 0 := by
  simp [pF0, Lin.apply, List.zipWith_replicate, dot]

/-- The `cfgC6` feature head also maps every input to 56 zeros
(`featuresOutDim` ignores the configuration). -/
theorem pF6_apply (x : List ℚ) : pF6.apply x = List.replicate 56 0 := by
  simp [pF6, featuresOutDim, Lin.apply, List.zipWith_replicate, dot]

/-- Concrete evaluation of the linear prediction strategy on `dec0` under the
default configuration: all slice-width asserts pass. -/
theorem linearPredict_cfg0_eval : linearPredict cfg0 pC0 pF0 dec0 = some P0 := by
  simp [linearPredict, cfg0, dec0, P0, pF0_apply, pC0_apply,
    List.take_replicate, List.drop_replicate]

/-- Concrete evaluation of the linear prediction strategy on `dec0` under
`cfgC6`: the curve-latent slice has width 14, so the assert fails. -/
theorem linearPredict_cfgC6_eval : linearPredict cfgC6 pC0 pF6 dec0 = none := by
  simp [linearPredict, cfgC6, dec0, pF6_apply, pC0_apply,
    List.take_replicate, List.drop_replicate]

/-! ### Claims -/

/-- C1: in `AutoencoderKLWireframe.loss`, ground-truth coordinates, offsets
and curve latents may be replaced arbitrarily (in particular zeroed) at every
position whose flag marks it invalid (flag ≤ 0.5, i.e. a position the
validity mask drops) without changing the segment-regression, column-offset,
row-offset, or latent-regression loss components: two runs on ground truths
with equal flags that agree at all valid positions produce equal values of
those four components. -/
theorem claim_C1_masking_invariance (cfg : Config) (coords1 coords2 : Ten3 ℚ)
    (fd1 fd2 : List (List FlagDiff)) (lat1 lat2 : Ten3 ℚ) (preds : Preds)
    (hflag : flagsOf fd1 = flagsOf fd2)
    (hcShape : coords1.map List.length = coords2.map List.length)
    (hlShape : lat1.map List.length = lat2.map List.length)
    (hcSel : List.zipWith maskSel (xsMaskOf fd1) coords1
      = List.zipWith maskSel (xsMaskOf fd1) coords2)
    (hfSel : List.zipWith maskSel (xsMaskOf fd1) fd1
      = List.zipWith maskSel (xsMaskOf fd1) fd2)
    (hlSel : List.zipWith maskSel (xsMaskOf fd1) lat1
      = List.zipWith maskSel (xsMaskOf fd1) lat2) :
    ((lossComponents cfg coords1 fd1 lat1 (xsMaskOf fd1) preds).2.1
        = (lossComponents cfg coords2 fd2 lat2 (xsMaskOf fd2) preds).2.1)
    ∧ ((lossComponents cfg coords1 fd1 lat1 (xsMaskOf fd1) preds).2.2.1
        = (lossComponents cfg coords2 fd2 lat2 (xsMaskOf fd2) preds).2.2.1)
    ∧ ((lossComponents cfg coords1 fd1 lat1 (xsMaskOf fd1) preds).2.2.2.1
        = (lossComponents cfg coords2 fd2 lat2 (xsMaskOf fd2) preds).2.2.2.1)
    ∧ ((lossComponents cfg coords1 fd1 lat1 (xsMaskOf fd1) preds).2.2.2.2
        = (lossComponents cfg coords2 fd2 lat2 (xsMaskOf fd2) preds).2.2.2.2) := by
  have hmask := xsMaskOf_congr fd1 fd2 hflag
  have hfShape := flagsOf_shape fd1 fd2 hflag
  rw [← hmask]
  simp only [lossComponents]
  exact ⟨segmentMseLoss_congr preds.segments coords1 coords2 (xsMaskOf fd1) hcShape hcSel,
    colDiffCeLoss_congr cfg preds.diffs fd1 fd2 (xsMaskOf fd1) hfShape hfSel,
    rowDiffCeLoss_congr cfg preds.diffs fd1 fd2 (xsMaskOf fd1) hfShape hfSel,
    curveLatentLoss_congr preds.curve_latent lat1 lat2 (xsMaskOf fd1) hlShape hlSel⟩

/-- Concrete evaluation of the validity mask of `fd1W` (position 0 valid,
position 1 invalid). -/
theorem xsMaskOf_fd1W_eval : xsMaskOf fd1W = [[true, false]] := by
  norm_num [xsMaskOf, flagsOf, fd1W]

/-- C1 witness: a concrete batch with one valid and one invalid position;
zeroing the invalid position's coordinates, offsets and latents leaves the
segment-regression component unchanged. -/
theorem claim_C1_witness :
    (flagsOf fd1W = flagsOf fd2W
      ∧ List.zipWith maskSel (xsMaskOf fd1W) coords1W
          = List.zipWith maskSel (xsMaskOf fd1W) coords2W
      ∧ List.zipWith maskSel (xsMaskOf fd1W) fd1W
          = List.zipWith maskSel (xsMaskOf fd1W) fd2W
      ∧ List.zipWith maskSel (xsMaskOf fd1W) lat1W
          = List.zipWith maskSel (xsMaskOf fd1W) lat2W)
    ∧ (lossComponents cfg0 coords1W fd1W lat1W (xsMaskOf fd1W) predsW).2.1
        = (lossComponents cfg0 coords2W fd2W lat2W (xsMaskOf fd2W) predsW).2.1 :=
  ⟨⟨by decide, by rw [xsMaskOf_fd1W_eval]; decide, by rw [xsMaskOf_fd1W_eval]; decide,
      by rw [xsMaskOf_fd1W_eval]; decide⟩,
    (claim_C1_masking_invariance cfg0 coords1W coords2W fd1W fd2W lat1W lat2W predsW
      (by decide) (by decide) (by decide)
      (by rw [xsMaskOf_fd1W_eval]; decide)
      (by rw [xsMaskOf_fd1W_eval]; decide)
      (by rw [xsMaskOf_fd1W_eval]; decide)).1⟩

/-- C2: with `return_loss=True` and the deterministic mode pathway
(`sample_posterior=False`), the `kl_loss` entry of the returned loss
dictionary is exactly zero, whatever the posterior statistics are. -/
theorem claim_C2_kl_zero_in_mode (cfg : Config) (w : LossWeights) (xs : Ten3 ℚ)
    (fd : List (List FlagDiff)) (preds : Preds) (post : Posterior) :
    ((forward cfg w xs fd preds post false true true).allOf.map
      (fun a => a.kl_loss)) = some 0 := by
  simp [forward, ForwardOut.allOf]

/-- C3: for a batch item whose flag channel sums to `k` (k valid segments,
1 ≤ k ≤ max_curves_num), the classification target passed to the
classification cross-entropy is the single scalar class `k - 1`. -/
theorem claim_C3_cls_target (cfg : Config) (fd : List (List FlagDiff)) (i : ℕ)
    (item : List FlagDiff) (k : ℤ)
    (hget : fd[i]? = some item)
    (hsum : (item.map (fun d => d.flag)).sum = k)
    (_hk : 1 ≤ k ∧ k ≤ (cfg.max_curves_num : ℤ)) :
    (clsTargets fd)[i]? = some (k - 1) := by
  unfold clsTargets
  rw [List.getElem?_map, hget]
  simp [hsum]

/-- C3 witness: a batch item with two valid segments gets target 1. -/
theorem claim_C3_witness :
    (fdW3[0]? = some [⟨1, 0, 0⟩, ⟨1, 0, 0⟩]
      ∧ (([⟨1, 0, 0⟩, ⟨1, 0, 0⟩] : List FlagDiff).map (fun d => d.flag)).sum = 2
      ∧ ((1 : ℤ) ≤ 2 ∧ (2 : ℤ) ≤ (cfg0.max_curves_num : ℤ)))
    ∧ (clsTargets fdW3)[0]? = some (2 - 1) :=
  ⟨⟨by decide, by decide, by decide, by decide⟩,
    claim_C3_cls_target cfg0 fdW3 0 [⟨1, 0, 0⟩, ⟨1, 0, 0⟩] 2
      (by decide) (by decide) ⟨by decide, by decide⟩⟩

/-- C4 (amended): `encode` succeeds and produces a posterior mean (and
log-variance) of shape (B, latent_channels, wireframe_latent_num) for inputs
padded to exactly `N = max_curves_num` segment positions; the claim's "every
N ≤ max_curves_num" fails because the positional bias `pos_emb + wire_embed`
only broadcasts at the padded length (see the counterexample). -/
theorem claim_C4_encode_shape (cfg : Config) (B : ℕ) :
    encodePosteriorShape cfg B cfg.max_curves_num
      = some [B, cfg.latent_channels, cfg.wireframe_latent_num] :=
  encodePosteriorShape_eval cfg B

/-- C4 counterexample: with `max_curves_num = 4`, a batch padded to `N = 2`
segment positions makes `encode` fail (the addition of the
(max_curves_num, attn_dim) positional bias to the (B, 2, attn_dim) embedding
does not broadcast), so the claim's shape guarantee for every
N ≤ max_curves_num is false. -/
theorem claim_C4_counterexample : encodePosteriorShape cfgSmall 1 2 = none := by decide

/-- C5: `decode` maps any latent of shape
(B, latent_channels, wireframe_latent_num) to a reconstruction of shape
(B, 1 + max_curves_num, attn_dim), and the linear prediction strategy consumes
slot 0 through the classification head and slots 1..max_curves_num through the
feature head, sliced into segments, offset logits and curve latents. -/
theorem claim_C5_decode_shape_and_slots (cfg : Config) (ulpe : Bool) (B : ℕ)
    (pC pF : Lin) (dec : Ten3 ℚ) (P : Preds)
    (h : linearPredict cfg pC pF dec = some P) :
    decodeShape cfg ulpe [B, cfg.latent_channels, cfg.wireframe_latent_num]
        = some [B, 1 + cfg.max_curves_num, cfg.attn_dim]
    ∧ P.cls = dec.map (fun item => pC.apply item.headI)
    ∧ P.segments = dec.map (fun item =>
        (item.drop 1).map (fun r => (pF.apply r).take 6))
    ∧ P.diffs = dec.map (fun item =>
        (item.drop 1).map (fun r =>
          ((pF.apply r).drop 6).take (cfg.max_col_diff + cfg.max_row_diff)))
    ∧ P.curve_latent = dec.map (fun item =>
        (item.drop 1).map (fun r =>
          (pF.apply r).drop (6 + cfg.max_col_diff + cfg.max_row_diff))) := by
  refine ⟨decodeShape_eval cfg ulpe B, ?_⟩
  have harith : 6 + cfg.max_col_diff + cfg.max_row_diff - 6
      = cfg.max_col_diff + cfg.max_row_diff := by omega
  simp only [linearPredict, harith] at h
  split at h
  · rw [Option.some.injEq] at h
    subst h
    refine ⟨rfl, ?_, ?_, ?_⟩ <;> simp [List.map_map, Function.comp_def]
  · exact absurd h (by simp)

/-- C5 witness: a concrete decoder output with one batch item; the default
configuration's slice widths let the prediction succeed, and the decode shape
contract holds. -/
theorem claim_C5_witness :
    linearPredict cfg0 pC0 pF0 dec0 = some P0
    ∧ decodeShape cfg0 false [1, cfg0.latent_channels, cfg0.wireframe_latent_num]
        = some [1, 1 + cfg0.max_curves_num, cfg0.attn_dim] :=
  ⟨linearPredict_cfg0_eval,
    (claim_C5_decode_shape_and_slots cfg0 false 1 pC0 pF0 dec0 P0
      linearPredict_cfg0_eval).1⟩

/-- C6 (code bug): the `predict_features` output width is hard-coded to
`6 + 6 + 32 + 12 = 56` rather than the claimed
`6 + (max_col_diff + max_row_diff) + 12`; with `max_col_diff = 4`,
`max_row_diff = 32` the curve-latent slice has width 14, so `linear_predict`'s
own `assert pred_curve_latent.shape[-1] == 12` fails. -/
theorem claim_C6_hardcoded_width :
    featuresOutDim cfgC6 ≠ 6 + (cfgC6.max_col_diff + cfgC6.max_row_diff) + 12
    ∧ linearPredict cfgC6 pC0 pF6 dec0 = none :=
  ⟨by decide, linearPredict_cfgC6_eval⟩

/-- C7 (amended): with `return_loss=True` AND `return_dict=True`, `forward`
returns the pair of the weighted sum of the five task losses plus the
weighted KL term, and the loss dictionary carrying every unweighted component
plus the diagnostics `mu` (mean absolute posterior mean) and `std` (mean
posterior standard deviation).  (As stated the claim is false: with
`return_dict=False` the loss pair is not returned — see the
counterexample.) -/
theorem claim_C7_weighted_sum (cfg : Config) (w : LossWeights) (xs : Ten3 ℚ)
    (fd : List (List FlagDiff)) (preds : Preds) (post : Posterior) (sp : Bool) :
    (forward cfg w xs fd preds post sp true true).totalOf
      = some (w.cls_loss_weight
            * (lossComponents cfg (segCoordsOf xs) fd (curveLatentOf xs) (xsMaskOf fd) preds).1
          + w.segment_loss_weight
            * (lossComponents cfg (segCoordsOf xs) fd (curveLatentOf xs) (xsMaskOf fd) preds).2.1
          + w.col_diff_loss_weight
            * (lossComponents cfg (segCoordsOf xs) fd (curveLatentOf xs) (xsMaskOf fd) preds).2.2.1
          + w.row_diff_loss_weight
            * (lossComponents cfg (segCoordsOf xs) fd (curveLatentOf xs) (xsMaskOf fd) preds).2.2.2.1
          + w.curve_latent_loss_weight
            * (lossComponents cfg (segCoordsOf xs) fd (curveLatentOf xs) (xsMaskOf fd) preds).2.2.2.2
          + w.kl_loss_weight * (if sp = true then ((klLoss post : ℚ) : ℝ) else 0))
    ∧ (forward cfg w xs fd preds post sp true true).allOf
      = some
        { cls_ce_loss :=
            (lossComponents cfg (segCoordsOf xs) fd (curveLatentOf xs) (xsMaskOf fd) preds).1
          segment_mse_loss :=
            (lossComponents cfg (segCoordsOf xs) fd (curveLatentOf xs) (xsMaskOf fd) preds).2.1
          col_diff_ce_loss :=
            (lossComponents cfg (segCoordsOf xs) fd (curveLatentOf xs) (xsMaskOf fd) preds).2.2.1
          row_diff_ce_loss :=
            (lossComponents cfg (segCoordsOf xs) fd (curveLatentOf xs) (xsMaskOf fd) preds).2.2.2.1
          curve_latent_loss :=
            (lossComponents cfg (segCoordsOf xs) fd (curveLatentOf xs) (xsMaskOf fd) preds).2.2.2.2
          kl_loss := (if sp = true then ((klLoss post : ℚ) : ℝ) else 0)
          mu := ((ten3MeanAbs post.mean : ℚ) : ℝ)
          std := ((ten3Mean post.std : ℚ) : ℝ) } := by
  cases sp <;> simp [forward, ForwardOut.totalOf, ForwardOut.allOf]

/-- C7 counterexample: with `return_loss=True` but `return_dict=False`,
`forward` returns the one-element prediction tuple, not a (loss, dict) pair,
so the claim as stated ("whenever return_loss=True") is false. -/
theorem claim_C7_counterexample :
    (forward cfg0 wE [] [] predsE postE false false true).isLossPair = false := by
  simp [forward, ForwardOut.isLossPair]

/-- C8: the segment-regression component is the sum of squared errors over
valid positions only, divided by `6 * (number of valid positions)` — the
count of valid scalar elements, never `batch * max_curves_num * 6`. -/
theorem claim_C8_valid_mean (predSegments gtSegmentCoords : Ten3 ℚ) (xsMask : Mat Bool)
    (hpm : predSegments.map List.length = xsMask.map List.length)
    (hgm : gtSegmentCoords.map List.length = xsMask.map List.length)
    (hp6 : ∀ pi ∈ predSegments, ∀ r ∈ pi, r.length = 6)
    (hg6 : ∀ gi ∈ gtSegmentCoords, ∀ r ∈ gi, r.length = 6) :
    ((lineMaskSelect xsMask
        (List.zipWith (fun pi gi => List.zipWith rowSqErr pi gi)
          predSegments gtSegmentCoords)).flatten).length = 6 * trueCount xsMask
    ∧ segmentMseLoss predSegments gtSegmentCoords xsMask
      = ((((lineMaskSelect xsMask
          (List.zipWith (fun pi gi => List.zipWith rowSqErr pi gi)
            predSegments gtSegmentCoords)).flatten).sum
          / ((6 * trueCount xsMask : ℕ) : ℚ) : ℚ) : ℝ) := by
  have hlen := batch_sel_len xsMask predSegments gtSegmentCoords hpm hgm hp6 hg6
  refine ⟨hlen, ?_⟩
  unfold segmentMseLoss listMeanQ
  rw [hlen]

/-- C8 witness: the spec's concrete scenario — flags `[1,1,0,0]` and
`[1,1,1,0]` give 5 valid positions, so the denominator is `6 * 5 = 30`,
not `2 * 4 * 6 = 48`. -/
theorem claim_C8_witness :
    (segPW.map List.length = maskW.map List.length ∧ 6 * trueCount maskW = 30)
    ∧ ((lineMaskSelect maskW
        (List.zipWith (fun pi gi => List.zipWith rowSqErr pi gi)
          segPW segGW)).flatten).length = 6 * trueCount maskW :=
  ⟨⟨by decide, by decide⟩,
    (claim_C8_valid_mean segPW segGW maskW (by decide) (by decide)
      (by decide) (by decide)).1⟩

/-- C9: the column/row class-weight buffers are strictly positive vectors of
length `max_col_diff` / `max_row_diff`, and they are deterministic functions
of the configuration alone: two constructions from configurations with equal
offset ranges yield identical vectors.  (The buffers are registered once at
construction and no embedded operation writes them.) -/
theorem claim_C9_weight_buffers (c1 c2 : Config)
    (hcol : c1.max_col_diff = c2.max_col_diff)
    (hrow : c1.max_row_diff = c2.max_row_diff) :
    (colDiffClassWeights c1.max_col_diff).length = c1.max_col_diff
    ∧ (∀ x ∈ colDiffClassWeights c1.max_col_diff, 0 < x)
    ∧ (rowDiffClassWeights c1.max_row_diff).length = c1.max_row_diff
    ∧ (∀ x ∈ rowDiffClassWeights c1.max_row_diff, 0 < x)
    ∧ colDiffClassWeights c1.max_col_diff = colDiffClassWeights c2.max_col_diff
    ∧ rowDiffClassWeights c1.max_row_diff = rowDiffClassWeights c2.max_row_diff := by
  refine ⟨?_, ?_, ?_, ?_, by rw [hcol], by rw [hrow]⟩
  · simp [colDiffClassWeights, linspace_length]
  · intro x hx
    simp only [colDiffClassWeights, List.mem_map] at hx
    obtain ⟨y, _, rfl⟩ := hx
    exact Real.exp_pos y
  · simp [rowDiffClassWeights, linspace_length]
  · intro x hx
    simp only [rowDiffClassWeights, List.mem_map] at hx
    obtain ⟨y, _, rfl⟩ := hx
    exact Real.exp_pos y

/-- C9 witness: the default configuration and a configuration with a
different attention width share the offset ranges, hence the buffers; the
column buffer has the configured length. -/
theorem claim_C9_witness :
    (cfg0.max_col_diff = cfgB.max_col_diff ∧ cfg0.max_row_diff = cfgB.max_row_diff)
    ∧ (colDiffClassWeights cfg0.max_col_diff).length = cfg0.max_col_diff :=
  ⟨⟨by decide, by decide⟩,
    (claim_C9_weight_buffers cfg0 cfgB (by decide) (by decide)).1⟩

/-- C10: `AutoencoderKLWireframeFastDecode.forward` evaluates the prediction
heads in both return modes (the forward result is defined exactly when the
heads' asserts pass); with `return_dict=False` it returns the one-element
tuple holding the raw decoder output — whose shape is
(B, 1 + max_curves_num, attn_dim) for any latent input — and with
`return_dict=True` it returns the four-way prediction dictionary. -/
theorem claim_C10_fast_decode (cfg : Config) (pC pF : Lin) (dec : Ten3 ℚ) (B n : ℕ) :
    ((fastDecodeForward cfg pC pF dec false).isSome
        = (linearPredict cfg pC pF dec).isSome)
    ∧ ((fastDecodeForward cfg pC pF dec true).isSome
        = (linearPredict cfg pC pF dec).isSome)
    ∧ (∀ P : Preds, linearPredict cfg pC pF dec = some P →
        fastDecodeForward cfg pC pF dec false = some (FastDecodeOut.decTuple dec)
        ∧ fastDecodeForward cfg pC pF dec true = some (FastDecodeOut.predsDict P))
    ∧ decodeShape cfg false [B, cfg.latent_channels, n]
        = some [B, 1 + cfg.max_curves_num, cfg.attn_dim] := by
  refine ⟨?_, ?_, ?_, decodeShape_eval_any cfg B n⟩
  · rcases h : linearPredict cfg pC pF dec with _ | P <;> simp [fastDecodeForward, h]
  · rcases h : linearPredict cfg pC pF dec with _ | P <;> simp [fastDecodeForward, h]
  · intro P hP
    simp [fastDecodeForward, hP]

/-- C10 witness: on a concrete decoder output the heads succeed and the
`return_dict=False` call returns the raw tuple. -/
theorem claim_C10_witness :
    linearPredict cfg0 pC0 pF0 dec0 = some P0
    ∧ fastDecodeForward cfg0 pC0 pF0 dec0 false = some (FastDecodeOut.decTuple dec0) :=
  ⟨linearPredict_cfg0_eval,
    (((claim_C10_fast_decode cfg0 pC0 pF0 dec0 1 1).2.2.1) P0
      linearPredict_cfg0_eval).1⟩

end CLRWire
